import Mathlib

/-!
Verification of the sno ID library (github.com/muyo/sno) against its
natural-language specification.

The development shallowly embeds the Go source:

* bytes are `Nat` values; wrap-around of Go's fixed-width integer types is
  made explicit with `% 256`, `% 2^16`, `% 2^32` exactly where the Go code
  can overflow;
* the 10-byte identifier (`ID`, src/id.go) is a structure of ten bytes;
* the base32 codec (`Encode`/`Decode`, src/internal/encoding.go) is
  translated byte-for-byte, including the decoding LUT whose entries for
  bytes outside the alphabet are 0xFF;
* the generator (src/generator.go) is a state record (`GenState`) with a
  single-call step function `newAttempt` giving the branch structure of
  `Generator.New` (fast path / time progression / accepted regression /
  deep-regression sleep / sequence overflow stall) for one linearized call;
* snapshot validation (`sanitizeSnapshotBounds`) and restoration
  (`newGeneratorFromSnapshot`) are translated with their exact uint16
  arithmetic;
* the default-partition allocator (src/partition.go) is modelled by its
  process-wide counter, passed explicitly.
-/

set_option maxRecDepth 4096

namespace Sno

/-! ## Codec (src/internal/encoding.go) -/

/-- Byte values of the encoding alphabet `23456789abcdefghijklmnopqrstuvwx`,
in order (the constant `enc` of src/internal/encoding.go). -/
def encTable : List Nat :=
  [50, 51, 52, 53, 54, 55, 56, 57,
   97, 98, 99, 100, 101, 102, 103, 104, 105, 106, 107, 108,
   109, 110, 111, 112, 113, 114, 115, 116, 117, 118, 119, 120]

/-- Sanity: `encTable` is exactly the byte string of the source's alphabet
constant. -/
theorem encTable_eq_alphabet :
    encTable = "23456789abcdefghijklmnopqrstuvwx".toList.map Char.toNat := by
  decide

/-- Indexing into the alphabet (`enc[i]` in the source). All call sites in
the source index with values below 32. -/
def enc (i : Nat) : Nat := encTable.getD i 0

/-- The decoding LUT `dec` built by `init` in src/internal/encoding.go:
bytes of the alphabet map to their index, every other byte maps to 0xFF. -/
def dec (c : Nat) : Nat := if c ∈ encTable then encTable.indexOf c else 255

/-- An ID is 10 bytes (src/id.go, `type ID [SizeBinary]byte`). -/
structure ID where
  b0 : Nat
  b1 : Nat
  b2 : Nat
  b3 : Nat
  b4 : Nat
  b5 : Nat
  b6 : Nat
  b7 : Nat
  b8 : Nat
  b9 : Nat
deriving DecidableEq

/-- All ten bytes are in byte range. -/
def ID.valid (x : ID) : Prop :=
  x.b0 < 256 ∧ x.b1 < 256 ∧ x.b2 < 256 ∧ x.b3 < 256 ∧ x.b4 < 256 ∧
  x.b5 < 256 ∧ x.b6 < 256 ∧ x.b7 < 256 ∧ x.b8 < 256 ∧ x.b9 < 256

instance (x : ID) : Decidable x.valid := by unfold ID.valid; infer_instance

/-- The 16-byte encoded form of an ID. -/
structure EncID where
  c0 : Nat
  c1 : Nat
  c2 : Nat
  c3 : Nat
  c4 : Nat
  c5 : Nat
  c6 : Nat
  c7 : Nat
  c8 : Nat
  c9 : Nat
  c10 : Nat
  c11 : Nat
  c12 : Nat
  c13 : Nat
  c14 : Nat
  c15 : Nat
deriving DecidableEq

/-- Every byte of the encoded form is a byte of the alphabet. -/
def EncID.inAlphabet (s : EncID) : Prop :=
  s.c0 ∈ encTable ∧ s.c1 ∈ encTable ∧ s.c2 ∈ encTable ∧ s.c3 ∈ encTable ∧
  s.c4 ∈ encTable ∧ s.c5 ∈ encTable ∧ s.c6 ∈ encTable ∧ s.c7 ∈ encTable ∧
  s.c8 ∈ encTable ∧ s.c9 ∈ encTable ∧ s.c10 ∈ encTable ∧ s.c11 ∈ encTable ∧
  s.c12 ∈ encTable ∧ s.c13 ∈ encTable ∧ s.c14 ∈ encTable ∧ s.c15 ∈ encTable

instance (s : EncID) : Decidable s.inAlphabet := by
  unfold EncID.inAlphabet; infer_instance

def EncID.toList (s : EncID) : List Nat :=
  [s.c0, s.c1, s.c2, s.c3, s.c4, s.c5, s.c6, s.c7,
   s.c8, s.c9, s.c10, s.c11, s.c12, s.c13, s.c14, s.c15]

/-- Translation of `Encode` (src/internal/encoding.go, lines 30-50).
Go `byte` shifts wrap modulo 256, hence the explicit `% 256` on every
left shift of a byte. -/
def Encode (s : ID) : EncID where
  c15 := enc (s.b9 &&& 0x1F)
  c14 := enc (((s.b9 >>> 5) ||| ((s.b8 <<< 3) % 256)) &&& 0x1F)
  c13 := enc ((s.b8 >>> 2) &&& 0x1F)
  c12 := enc (((s.b8 >>> 7) ||| ((s.b7 <<< 1) % 256)) &&& 0x1F)
  c11 := enc (((s.b7 >>> 4) ||| ((s.b6 <<< 4) % 256)) &&& 0x1F)
  c10 := enc ((s.b6 >>> 1) &&& 0x1F)
  c9 := enc (((s.b6 >>> 6) ||| ((s.b5 <<< 2) % 256)) &&& 0x1F)
  c8 := enc (s.b5 >>> 3)
  c7 := enc (s.b4 &&& 0x1F)
  c6 := enc (((s.b4 >>> 5) ||| ((s.b3 <<< 3) % 256)) &&& 0x1F)
  c5 := enc ((s.b3 >>> 2) &&& 0x1F)
  c4 := enc (((s.b3 >>> 7) ||| ((s.b2 <<< 1) % 256)) &&& 0x1F)
  c3 := enc (((s.b2 >>> 4) ||| ((s.b1 <<< 4) % 256)) &&& 0x1F)
  c2 := enc ((s.b1 >>> 1) &&& 0x1F)
  c1 := enc (((s.b1 >>> 6) ||| ((s.b0 <<< 2) % 256)) &&& 0x1F)
  c0 := enc (s.b0 >>> 3)

/-- Translation of `Decode` (src/internal/encoding.go, lines 52-68).
Again every left shift of a byte wraps modulo 256. -/
def Decode (c : EncID) : ID where
  b9 := ((dec c.c14 <<< 5) % 256) ||| dec c.c15
  b8 := ((dec c.c12 <<< 7) % 256) ||| ((dec c.c13 <<< 2) % 256) ||| (dec c.c14 >>> 3)
  b7 := ((dec c.c11 <<< 4) % 256) ||| (dec c.c12 >>> 1)
  b6 := ((dec c.c9 <<< 6) % 256) ||| ((dec c.c10 <<< 1) % 256) ||| (dec c.c11 >>> 4)
  b5 := ((dec c.c8 <<< 3) % 256) ||| (dec c.c9 >>> 2)
  b4 := ((dec c.c6 <<< 5) % 256) ||| dec c.c7
  b3 := ((dec c.c4 <<< 7) % 256) ||| ((dec c.c5 <<< 2) % 256) ||| (dec c.c6 >>> 3)
  b2 := ((dec c.c3 <<< 4) % 256) ||| (dec c.c4 >>> 1)
  b1 := ((dec c.c1 <<< 6) % 256) ||| ((dec c.c2 <<< 1) % 256) ||| (dec c.c3 >>> 4)
  b0 := ((dec c.c0 <<< 3) % 256) ||| (dec c.c1 >>> 2)

/-! ## Codec roundtrip machinery

The 5-bit field extractions of `Encode` and the byte reassembly of `Decode`
are first characterized arithmetically (bounded `decide`), after which the
roundtrips reduce to `omega`-provable div/mod facts. -/

theorem dec_enc : ∀ i < 32, dec (enc i) = i := by decide

theorem dec_of_alphabet : ∀ c ∈ encTable, dec c < 32 ∧ enc (dec c) = c := by decide

theorem and_mod32 (x : Nat) : x &&& 31 = x % 32 :=
  Nat.and_pow_two_sub_one_eq_mod x 5

theorem and31_lt (a : Nat) : a &&& 31 < 32 := by rw [and_mod32]; omega

/-- Bitwise or of values occupying disjoint bit ranges is addition. -/
theorem lor_add (k a b : Nat) (ha : a % 2 ^ k = 0) (hb : b < 2 ^ k) :
    a ||| b = a + b := by
  obtain ⟨c, rfl⟩ := Nat.dvd_of_mod_eq_zero ha
  exact (Nat.mul_add_lt_is_or hb c).symm

theorem lor_add' (k a b : Nat) (ha : a % 2 ^ k = 0) (hb : b < 2 ^ k) :
    b ||| a = a + b := by
  rw [Nat.lor_comm]; exact lor_add k a b ha hb

theorem fieldA1 : ∀ y < 256, y &&& 31 = y % 32 := fun y _ => and_mod32 y

theorem fieldA2 : ∀ x < 256, ∀ y < 256,
    ((y >>> 5) ||| ((x <<< 3) % 256)) &&& 31 = y / 32 + x % 4 * 8 := by
  intro x hx y hy
  rw [lor_add' 3 ((x <<< 3) % 256) (y >>> 5) (by omega) (by omega), and_mod32]
  omega

theorem fieldA3 : ∀ x < 256, (x >>> 2) &&& 31 = x / 4 % 32 := by
  intro x hx; rw [and_mod32]; omega

theorem fieldA4 : ∀ x < 256, ∀ y < 256,
    ((y >>> 7) ||| ((x <<< 1) % 256)) &&& 31 = y / 128 + x % 16 * 2 := by
  intro x hx y hy
  rw [lor_add' 1 ((x <<< 1) % 256) (y >>> 7) (by omega) (by omega), and_mod32]
  omega

theorem fieldA5 : ∀ x < 256, ∀ y < 256,
    ((y >>> 4) ||| ((x <<< 4) % 256)) &&& 31 = y / 16 + x % 2 * 16 := by
  intro x hx y hy
  rw [lor_add' 4 ((x <<< 4) % 256) (y >>> 4) (by omega) (by omega), and_mod32]
  omega

theorem fieldA6 : ∀ x < 256, (x >>> 1) &&& 31 = x / 2 % 32 := by
  intro x hx; rw [and_mod32]; omega

theorem fieldA7 : ∀ x < 256, ∀ y < 256,
    ((y >>> 6) ||| ((x <<< 2) % 256)) &&& 31 = y / 64 + x % 8 * 4 := by
  intro x hx y hy
  rw [lor_add' 2 ((x <<< 2) % 256) (y >>> 6) (by omega) (by omega), and_mod32]
  omega

theorem fieldA8 : ∀ x < 256, x >>> 3 = x / 8 := by intro x _; omega

theorem asmB5 : ∀ u < 32, ∀ v < 32,
    ((u <<< 5) % 256) ||| v = u % 8 * 32 + v := by
  intro u hu v hv
  rw [lor_add 5 ((u <<< 5) % 256) v (by omega) (by omega)]
  omega

theorem asmB7 : ∀ u < 32, ∀ v < 32, ∀ w < 32,
    ((u <<< 7) % 256) ||| ((v <<< 2) % 256) ||| (w >>> 3) =
      u % 2 * 128 + v * 4 + w / 8 := by
  intro u hu v hv w hw
  rw [lor_add 7 ((u <<< 7) % 256) ((v <<< 2) % 256) (by omega) (by omega),
    lor_add 2 _ (w >>> 3) (by omega) (by omega)]
  omega

theorem asmB4 : ∀ u < 32, ∀ v < 32,
    ((u <<< 4) % 256) ||| (v >>> 1) = u % 16 * 16 + v / 2 := by
  intro u hu v hv
  rw [lor_add 4 ((u <<< 4) % 256) (v >>> 1) (by omega) (by omega)]
  omega

theorem asmB6 : ∀ u < 32, ∀ v < 32, ∀ w < 32,
    ((u <<< 6) % 256) ||| ((v <<< 1) % 256) ||| (w >>> 4) =
      u % 4 * 64 + v * 2 + w / 16 := by
  intro u hu v hv w hw
  rw [lor_add 6 ((u <<< 6) % 256) ((v <<< 1) % 256) (by omega) (by omega),
    lor_add 1 _ (w >>> 4) (by omega) (by omega)]
  omega

theorem asmB3 : ∀ u < 32, ∀ v < 32,
    ((u <<< 3) % 256) ||| (v >>> 2) = u * 8 + v / 4 := by
  intro u hu v hv
  rw [lor_add 3 ((u <<< 3) % 256) (v >>> 2) (by omega) (by omega)]
  omega

/-- Decoding inverts encoding on every 10-byte identifier. -/
theorem decode_encode (x : ID) (h : x.valid) : Decode (Encode x) = x := by
  obtain ⟨b0, b1, b2, b3, b4, b5, b6, b7, b8, b9⟩ := x
  simp only [ID.valid] at h
  obtain ⟨hb0, hb1, hb2, hb3, hb4, hb5, hb6, hb7, hb8, hb9⟩ := h
  simp only [Encode, Decode, ID.mk.injEq]
  refine ⟨?_, ?_, ?_, ?_, ?_, ?_, ?_, ?_, ?_, ?_⟩
  · rw [dec_enc (b0 >>> 3) (by omega), dec_enc _ (and31_lt _),
      fieldA7 b0 hb0 b1 hb1,
      asmB3 (b0 >>> 3) (by omega) (b1 / 64 + b0 % 8 * 4) (by omega)]
    omega
  · rw [dec_enc _ (and31_lt _), dec_enc _ (and31_lt _), dec_enc _ (and31_lt _),
      fieldA7 b0 hb0 b1 hb1, fieldA6 b1 hb1, fieldA5 b1 hb1 b2 hb2,
      asmB6 (b1 / 64 + b0 % 8 * 4) (by omega) (b1 / 2 % 32) (by omega)
        (b2 / 16 + b1 % 2 * 16) (by omega)]
    omega
  · rw [dec_enc _ (and31_lt _), dec_enc _ (and31_lt _),
      fieldA5 b1 hb1 b2 hb2, fieldA4 b2 hb2 b3 hb3,
      asmB4 (b2 / 16 + b1 % 2 * 16) (by omega) (b3 / 128 + b2 % 16 * 2) (by omega)]
    omega
  · rw [dec_enc _ (and31_lt _), dec_enc _ (and31_lt _), dec_enc _ (and31_lt _),
      fieldA4 b2 hb2 b3 hb3, fieldA3 b3 hb3, fieldA2 b3 hb3 b4 hb4,
      asmB7 (b3 / 128 + b2 % 16 * 2) (by omega) (b3 / 4 % 32) (by omega)
        (b4 / 32 + b3 % 4 * 8) (by omega)]
    omega
  · rw [dec_enc _ (and31_lt _), dec_enc _ (and31_lt _),
      fieldA2 b3 hb3 b4 hb4, fieldA1 b4 hb4,
      asmB5 (b4 / 32 + b3 % 4 * 8) (by omega) (b4 % 32) (by omega)]
    omega
  · rw [dec_enc (b5 >>> 3) (by omega), dec_enc _ (and31_lt _),
      fieldA7 b5 hb5 b6 hb6,
      asmB3 (b5 >>> 3) (by omega) (b6 / 64 + b5 % 8 * 4) (by omega)]
    omega
  · rw [dec_enc _ (and31_lt _), dec_enc _ (and31_lt _), dec_enc _ (and31_lt _),
      fieldA7 b5 hb5 b6 hb6, fieldA6 b6 hb6, fieldA5 b6 hb6 b7 hb7,
      asmB6 (b6 / 64 + b5 % 8 * 4) (by omega) (b6 / 2 % 32) (by omega)
        (b7 / 16 + b6 % 2 * 16) (by omega)]
    omega
  · rw [dec_enc _ (and31_lt _), dec_enc _ (and31_lt _),
      fieldA5 b6 hb6 b7 hb7, fieldA4 b7 hb7 b8 hb8,
      asmB4 (b7 / 16 + b6 % 2 * 16) (by omega) (b8 / 128 + b7 % 16 * 2) (by omega)]
    omega
  · rw [dec_enc _ (and31_lt _), dec_enc _ (and31_lt _), dec_enc _ (and31_lt _),
      fieldA4 b7 hb7 b8 hb8, fieldA3 b8 hb8, fieldA2 b8 hb8 b9 hb9,
      asmB7 (b8 / 128 + b7 % 16 * 2) (by omega) (b8 / 4 % 32) (by omega)
        (b9 / 32 + b8 % 4 * 8) (by omega)]
    omega
  · rw [dec_enc _ (and31_lt _), dec_enc _ (and31_lt _),
      fieldA2 b8 hb8 b9 hb9, fieldA1 b9 hb9,
      asmB5 (b9 / 32 + b8 % 4 * 8) (by omega) (b9 % 32) (by omega)]
    omega

/-- Encoding inverts decoding on every 16-byte input over the alphabet. -/
theorem encode_decode (s : EncID) (h : s.inAlphabet) : Encode (Decode s) = s := by
  obtain ⟨c0, c1, c2, c3, c4, c5, c6, c7, c8, c9, c10, c11, c12, c13, c14, c15⟩ := s
  simp only [EncID.inAlphabet] at h
  obtain ⟨h0, h1, h2, h3, h4, h5, h6, h7, h8, h9, h10, h11, h12, h13, h14, h15⟩ := h
  have hv0 := (dec_of_alphabet c0 h0).1
  have he0 := (dec_of_alphabet c0 h0).2
  have hv1 := (dec_of_alphabet c1 h1).1
  have he1 := (dec_of_alphabet c1 h1).2
  have hv2 := (dec_of_alphabet c2 h2).1
  have he2 := (dec_of_alphabet c2 h2).2
  have hv3 := (dec_of_alphabet c3 h3).1
  have he3 := (dec_of_alphabet c3 h3).2
  have hv4 := (dec_of_alphabet c4 h4).1
  have he4 := (dec_of_alphabet c4 h4).2
  have hv5 := (dec_of_alphabet c5 h5).1
  have he5 := (dec_of_alphabet c5 h5).2
  have hv6 := (dec_of_alphabet c6 h6).1
  have he6 := (dec_of_alphabet c6 h6).2
  have hv7 := (dec_of_alphabet c7 h7).1
  have he7 := (dec_of_alphabet c7 h7).2
  have hv8 := (dec_of_alphabet c8 h8).1
  have he8 := (dec_of_alphabet c8 h8).2
  have hv9 := (dec_of_alphabet c9 h9).1
  have he9 := (dec_of_alphabet c9 h9).2
  have hv10 := (dec_of_alphabet c10 h10).1
  have he10 := (dec_of_alphabet c10 h10).2
  have hv11 := (dec_of_alphabet c11 h11).1
  have he11 := (dec_of_alphabet c11 h11).2
  have hv12 := (dec_of_alphabet c12 h12).1
  have he12 := (dec_of_alphabet c12 h12).2
  have hv13 := (dec_of_alphabet c13 h13).1
  have he13 := (dec_of_alphabet c13 h13).2
  have hv14 := (dec_of_alphabet c14 h14).1
  have he14 := (dec_of_alphabet c14 h14).2
  have hv15 := (dec_of_alphabet c15 h15).1
  have he15 := (dec_of_alphabet c15 h15).2
  simp only [Encode, Decode, EncID.mk.injEq]
  refine ⟨?_, ?_, ?_, ?_, ?_, ?_, ?_, ?_, ?_, ?_, ?_, ?_, ?_, ?_, ?_, ?_⟩
  · rw [asmB3 (dec c0) hv0 (dec c1) hv1]
    exact (congrArg enc (by omega)).trans he0
  · rw [asmB6 (dec c1) hv1 (dec c2) hv2 (dec c3) hv3, asmB3 (dec c0) hv0 (dec c1) hv1,
      fieldA7 (dec c0 * 8 + dec c1 / 4) (by omega)
        (dec c1 % 4 * 64 + dec c2 * 2 + dec c3 / 16) (by omega)]
    exact (congrArg enc (by omega)).trans he1
  · rw [asmB6 (dec c1) hv1 (dec c2) hv2 (dec c3) hv3,
      fieldA6 (dec c1 % 4 * 64 + dec c2 * 2 + dec c3 / 16) (by omega)]
    exact (congrArg enc (by omega)).trans he2
  · rw [asmB4 (dec c3) hv3 (dec c4) hv4, asmB6 (dec c1) hv1 (dec c2) hv2 (dec c3) hv3,
      fieldA5 (dec c1 % 4 * 64 + dec c2 * 2 + dec c3 / 16) (by omega)
        (dec c3 % 16 * 16 + dec c4 / 2) (by omega)]
    exact (congrArg enc (by omega)).trans he3
  · rw [asmB7 (dec c4) hv4 (dec c5) hv5 (dec c6) hv6, asmB4 (dec c3) hv3 (dec c4) hv4,
      fieldA4 (dec c3 % 16 * 16 + dec c4 / 2) (by omega)
        (dec c4 % 2 * 128 + dec c5 * 4 + dec c6 / 8) (by omega)]
    exact (congrArg enc (by omega)).trans he4
  · rw [asmB7 (dec c4) hv4 (dec c5) hv5 (dec c6) hv6,
      fieldA3 (dec c4 % 2 * 128 + dec c5 * 4 + dec c6 / 8) (by omega)]
    exact (congrArg enc (by omega)).trans he5
  · rw [asmB5 (dec c6) hv6 (dec c7) hv7, asmB7 (dec c4) hv4 (dec c5) hv5 (dec c6) hv6,
      fieldA2 (dec c4 % 2 * 128 + dec c5 * 4 + dec c6 / 8) (by omega)
        (dec c6 % 8 * 32 + dec c7) (by omega)]
    exact (congrArg enc (by omega)).trans he6
  · rw [asmB5 (dec c6) hv6 (dec c7) hv7,
      fieldA1 (dec c6 % 8 * 32 + dec c7) (by omega)]
    exact (congrArg enc (by omega)).trans he7
  · rw [asmB3 (dec c8) hv8 (dec c9) hv9]
    exact (congrArg enc (by omega)).trans he8
  · rw [asmB6 (dec c9) hv9 (dec c10) hv10 (dec c11) hv11, asmB3 (dec c8) hv8 (dec c9) hv9,
      fieldA7 (dec c8 * 8 + dec c9 / 4) (by omega)
        (dec c9 % 4 * 64 + dec c10 * 2 + dec c11 / 16) (by omega)]
    exact (congrArg enc (by omega)).trans he9
  · rw [asmB6 (dec c9) hv9 (dec c10) hv10 (dec c11) hv11,
      fieldA6 (dec c9 % 4 * 64 + dec c10 * 2 + dec c11 / 16) (by omega)]
    exact (congrArg enc (by omega)).trans he10
  · rw [asmB4 (dec c11) hv11 (dec c12) hv12, asmB6 (dec c9) hv9 (dec c10) hv10 (dec c11) hv11,
      fieldA5 (dec c9 % 4 * 64 + dec c10 * 2 + dec c11 / 16) (by omega)
        (dec c11 % 16 * 16 + dec c12 / 2) (by omega)]
    exact (congrArg enc (by omega)).trans he11
  · rw [asmB7 (dec c12) hv12 (dec c13) hv13 (dec c14) hv14, asmB4 (dec c11) hv11 (dec c12) hv12,
      fieldA4 (dec c11 % 16 * 16 + dec c12 / 2) (by omega)
        (dec c12 % 2 * 128 + dec c13 * 4 + dec c14 / 8) (by omega)]
    exact (congrArg enc (by omega)).trans he12
  · rw [asmB7 (dec c12) hv12 (dec c13) hv13 (dec c14) hv14,
      fieldA3 (dec c12 % 2 * 128 + dec c13 * 4 + dec c14 / 8) (by omega)]
    exact (congrArg enc (by omega)).trans he13
  · rw [asmB5 (dec c14) hv14 (dec c15) hv15, asmB7 (dec c12) hv12 (dec c13) hv13 (dec c14) hv14,
      fieldA2 (dec c12 % 2 * 128 + dec c13 * 4 + dec c14 / 8) (by omega)
        (dec c14 % 8 * 32 + dec c15) (by omega)]
    exact (congrArg enc (by omega)).trans he14
  · rw [asmB5 (dec c14) hv14 (dec c15) hv15,
      fieldA1 (dec c14 % 8 * 32 + dec c15) (by omega)]
    exact (congrArg enc (by omega)).trans he15

/-- C1: For every 10-byte identifier id, decode(encode(id)) == id, and for
every 16-character string s composed solely of characters of the alphabet
23456789abcdefghijklmnopqrstuvwx, encode(decode(s)) == s. -/
theorem c1_codec_roundtrip :
    (∀ x : ID, x.valid → Decode (Encode x) = x) ∧
    (∀ s : EncID, s.inAlphabet → Encode (Decode s) = s) :=
  ⟨decode_encode, encode_decode⟩

/-- Witness instantiating both halves of C1 on concrete inputs. -/
theorem c1_codec_roundtrip_witness :
    Decode (Encode ⟨78, 111, 33, 96, 160, 255, 154, 10, 16, 51⟩) =
      ⟨78, 111, 33, 96, 160, 255, 154, 10, 16, 51⟩ ∧
    Encode (Decode ⟨98, 114, 112, 107, 52, 113, 55, 50,
        120, 119, 102, 50, 109, 54, 51, 108⟩) =
      ⟨98, 114, 112, 107, 52, 113, 55, 50, 120, 119, 102, 50, 109, 54, 51, 108⟩ :=
  ⟨c1_codec_roundtrip.1 _ (by decide), c1_codec_roundtrip.2 _ (by decide)⟩

/-! ## Identifier accessors (src/id.go) -/

/-- Big-endian interpretation of the first eight bytes, the value
`binary.BigEndian.Uint64(id[:])` used by `ID.Time` and `ID.Timestamp`. -/
def beUint64 (x : ID) : Nat :=
  ((((((x.b0 * 256 + x.b1) * 256 + x.b2) * 256 + x.b3) * 256 + x.b4) * 256
    + x.b5) * 256 + x.b6) * 256 + x.b7

/-- The 39-bit time unit count of an identifier: the 25-bit right shift
shared by `ID.Time` and `ID.Timestamp` (src/id.go, lines 57-70). -/
def timestampUnits (x : ID) : Nat := beUint64 x >>> 25

/-- Translation of `ID.Meta` (src/id.go): byte 5. -/
def ID.meta (x : ID) : Nat := x.b5

/-- Translation of `ID.Partition` (src/id.go): the pair of bytes 6 and 7. -/
def ID.partition (x : ID) : Nat × Nat := (x.b6, x.b7)

/-- The identifier's partition as a uint16, `Partition.AsUint16` applied to
`ID.Partition` (src/partition.go, lines 12-15). -/
def partitionU16 (x : ID) : Nat := (x.b6 <<< 8) ||| x.b7

/-- Translation of `ID.Sequence` (src/id.go): bytes 8-9 big-endian. -/
def ID.sequence (x : ID) : Nat := (x.b8 <<< 8) ||| x.b9

/-- The tick-tock bit: byte 4 AND 1 (spec section 4.1; the LSB of the
timestamp block written by `applyTickTock`). -/
def tickTock (x : ID) : Nat := x.b4 &&& 1

/-- Translation of `ID.IsZero` (src/id.go). -/
def ID.isZero (x : ID) : Prop := x = ⟨0, 0, 0, 0, 0, 0, 0, 0, 0, 0⟩

/-! ## Field application helpers of the generator (src/generator.go, 384-405)

`Generator.New` starts from a zero-valued `var id ID` and applies these in
order; Go's `byte(x)` conversion truncates modulo 256. -/

def applyTimestamp (units : Nat) : ID where
  b0 := (units >>> 31) % 256
  b1 := (units >>> 23) % 256
  b2 := (units >>> 15) % 256
  b3 := (units >>> 7) % 256
  b4 := (units <<< 1) % 256
  b5 := 0
  b6 := 0
  b7 := 0
  b8 := 0
  b9 := 0

def applyTickTock (x : ID) (counter : Nat) : ID :=
  { x with b4 := x.b4 ||| (counter &&& 1) }

def applyPartition (x : ID) (meta p0 p1 : Nat) : ID :=
  { x with b5 := meta, b6 := p0, b7 := p1 }

def applySequence (x : ID) (seq : Nat) : ID :=
  { x with b8 := (seq >>> 8) % 256, b9 := seq % 256 }

/-- The identifier `Generator.New` assembles: the four apply helpers run in
their source order on a zeroed ID. -/
def mkID (units counter meta p0 p1 seq : Nat) : ID :=
  applySequence (applyPartition (applyTickTock (applyTimestamp units) counter) meta p0 p1) seq

theorem mkID_eq (units counter meta p0 p1 seq : Nat) :
    mkID units counter meta p0 p1 seq =
      ⟨(units >>> 31) % 256, (units >>> 23) % 256, (units >>> 15) % 256,
       (units >>> 7) % 256, ((units <<< 1) % 256) ||| (counter &&& 1),
       meta, p0, p1, (seq >>> 8) % 256, seq % 256⟩ := rfl

theorem mkID_timestampUnits (units counter meta p0 p1 seq : Nat)
    (hu : units < 2 ^ 39) (hm : meta < 256) (hp0 : p0 < 256) (hp1 : p1 < 256) :
    timestampUnits (mkID units counter meta p0 p1 seq) = units := by
  rw [mkID_eq]
  simp only [timestampUnits, beUint64]
  rw [Nat.and_one_is_mod,
    lor_add 1 ((units <<< 1) % 256) (counter % 2) (by omega) (by omega)]
  omega

theorem mkID_tickTock (units counter meta p0 p1 seq : Nat) :
    tickTock (mkID units counter meta p0 p1 seq) = counter % 2 := by
  rw [mkID_eq]
  simp only [tickTock]
  rw [Nat.and_one_is_mod (((units <<< 1) % 256) ||| (counter &&& 1)),
    Nat.and_one_is_mod counter,
    lor_add 1 ((units <<< 1) % 256) (counter % 2) (by omega) (by omega)]
  omega

theorem mkID_sequence (units counter meta p0 p1 seq : Nat) (hs : seq < 65536) :
    (mkID units counter meta p0 p1 seq).sequence = seq := by
  rw [mkID_eq]
  simp only [ID.sequence]
  rw [lor_add 8 (((seq >>> 8) % 256) <<< 8) (seq % 256) (by omega) (by omega)]
  omega

/-- C6: For every time unit count below 2^39, tick-tock bit, metabyte,
partition and 16-bit sequence, the identifier assembled by the generator's
field-application helpers decodes back exactly: the 39-bit count is
recovered by a 25-bit right shift of the first 8 bytes, meta returns
byte 5, partition returns bytes 6-7, sequence returns bytes 8-9 as a
big-endian u16, and the tick-tock bit is the LSB of byte 4. -/
theorem c6_apply_decode_roundtrip (units t meta p0 p1 seq : Nat)
    (hu : units < 2 ^ 39) (ht : t < 2) (hm : meta < 256)
    (hp0 : p0 < 256) (hp1 : p1 < 256) (hs : seq < 65536) :
    timestampUnits (mkID units t meta p0 p1 seq) = units ∧
    (mkID units t meta p0 p1 seq).meta = meta ∧
    (mkID units t meta p0 p1 seq).partition = (p0, p1) ∧
    (mkID units t meta p0 p1 seq).sequence = seq ∧
    tickTock (mkID units t meta p0 p1 seq) = t := by
  refine ⟨mkID_timestampUnits units t meta p0 p1 seq hu hm hp0 hp1, rfl, rfl,
    mkID_sequence units t meta p0 p1 seq hs, ?_⟩
  rw [mkID_tickTock]; omega

/-- Witness instantiating C6 on a concrete field assignment. -/
theorem c6_apply_decode_roundtrip_witness :
    timestampUnits (mkID 123456789 1 42 7 9 514) = 123456789 ∧
    (mkID 123456789 1 42 7 9 514).meta = 42 ∧
    (mkID 123456789 1 42 7 9 514).partition = (7, 9) ∧
    (mkID 123456789 1 42 7 9 514).sequence = 514 ∧
    tickTock (mkID 123456789 1 42 7 9 514) = 1 :=
  c6_apply_decode_roundtrip 123456789 1 42 7 9 514 (by decide) (by decide)
    (by decide) (by decide) (by decide) (by decide)

/-! ## C2: lexicographic byte order versus decoded tuple order -/

/-- Three-way comparison of naturals, with the -1/0/1 convention of Go's
bytes.Compare. -/
def cmpNat (a b : Nat) : Int := if a < b then -1 else if b < a then 1 else 0

/-- Lexicographic combination: the second comparison breaks ties. -/
def lexInt (a b : Int) : Int := if a = 0 then b else a

/-- Lexicographic three-way comparison of byte lists, the semantics of
`bytes.Compare` used by `ID.Compare` (src/id.go, lines 196-198). -/
def bytesCmp : List Nat → List Nat → Int
  | [], [] => 0
  | [], _ :: _ => -1
  | _ :: _, [] => 1
  | a :: as, b :: bs => if a < b then -1 else if b < a then 1 else bytesCmp as bs

def ID.toList (x : ID) : List Nat :=
  [x.b0, x.b1, x.b2, x.b3, x.b4, x.b5, x.b6, x.b7, x.b8, x.b9]

/-- Translation of `ID.Compare` (src/id.go): bytes.Compare over the two
10-byte arrays. -/
def ID.compare (x y : ID) : Int := bytesCmp x.toList y.toList

/-- Lexicographic comparison of the decoded component tuples
(39-bit time unit count, tick-tock bit, metabyte, partition as big-endian
u16, sequence as big-endian u16). -/
def tupleCmp (x y : ID) : Int :=
  lexInt (cmpNat (timestampUnits x) (timestampUnits y))
    (lexInt (cmpNat (tickTock x) (tickTock y))
      (lexInt (cmpNat x.meta y.meta)
        (lexInt (cmpNat (partitionU16 x) (partitionU16 y))
          (cmpNat x.sequence y.sequence))))

/-- The full 80-bit big-endian value of an identifier. -/
def natVal (x : ID) : Nat :=
  ((((((((x.b0 * 256 + x.b1) * 256 + x.b2) * 256 + x.b3) * 256 + x.b4) * 256
    + x.b5) * 256 + x.b6) * 256 + x.b7) * 256 + x.b8) * 256 + x.b9

theorem bytesCmp_nil : bytesCmp [] [] = 0 := rfl

theorem bytesCmp_cons (a b : Nat) (as bs : List Nat) :
    bytesCmp (a :: as) (b :: bs) = lexInt (cmpNat a b) (bytesCmp as bs) := by
  rcases Nat.lt_trichotomy a b with h | h | h
  · simp [bytesCmp, cmpNat, lexInt, h]
  · subst h
    simp [bytesCmp, cmpNat, lexInt]
  · simp [bytesCmp, cmpNat, lexInt, h, Nat.lt_asymm h]

theorem lexInt_zero (a : Int) : lexInt a 0 = a := by
  simp only [lexInt]
  split_ifs with h
  · exact h.symm
  · rfl

theorem lexInt_assoc (a b c : Int) :
    lexInt (lexInt a b) c = lexInt a (lexInt b c) := by
  by_cases ha : a = 0 <;> simp [lexInt, ha]

/-- Comparing numbers written in positional form peels off the most
significant digit. -/
theorem cmpNat_peel {C a b r s : Nat} (hr : r < C) (hs : s < C) :
    cmpNat (a * C + r) (b * C + s) = lexInt (cmpNat a b) (cmpNat r s) := by
  rcases Nat.lt_trichotomy a b with h | h | h
  · have h2 : (a + 1) * C ≤ b * C := Nat.mul_le_mul_right C h
    have h3 : (a + 1) * C = a * C + C := by ring
    have hlt : a * C + r < b * C + s := by omega
    have e1 : cmpNat a b = -1 := by simp [cmpNat, h]
    have e2 : cmpNat (a * C + r) (b * C + s) = -1 := by simp [cmpNat, hlt]
    rw [e1, e2]
    simp [lexInt]
  · subst h
    have e1 : cmpNat a a = 0 := by simp [cmpNat]
    rw [e1]
    have e2 : lexInt 0 (cmpNat r s) = cmpNat r s := by simp [lexInt]
    rw [e2]
    simp only [cmpNat]
    split_ifs <;> omega
  · have h2 : (b + 1) * C ≤ a * C := Nat.mul_le_mul_right C h
    have h3 : (b + 1) * C = b * C + C := by ring
    have hlt : b * C + s < a * C + r := by omega
    have e1 : cmpNat a b = 1 := by simp [cmpNat, h, Nat.lt_asymm h]
    have e2 : cmpNat (a * C + r) (b * C + s) = 1 := by
      simp [cmpNat, hlt, Nat.lt_asymm hlt]
    rw [e1, e2]
    simp [lexInt]

theorem bytesCmp_natVal (x y : ID) (hx : x.valid) (hy : y.valid) :
    ID.compare x y = cmpNat (natVal x) (natVal y) := by
  obtain ⟨a0, a1, a2, a3, a4, a5, a6, a7, a8, a9⟩ := x
  obtain ⟨b0, b1, b2, b3, b4, b5, b6, b7, b8, b9⟩ := y
  simp only [ID.valid] at hx hy
  obtain ⟨ha0, ha1, ha2, ha3, ha4, ha5, ha6, ha7, ha8, ha9⟩ := hx
  obtain ⟨hb0, hb1, hb2, hb3, hb4, hb5, hb6, hb7, hb8, hb9⟩ := hy
  simp only [ID.compare, ID.toList, natVal]
  rw [cmpNat_peel ha9 hb9, cmpNat_peel ha8 hb8, cmpNat_peel ha7 hb7,
    cmpNat_peel ha6 hb6, cmpNat_peel ha5 hb5, cmpNat_peel ha4 hb4,
    cmpNat_peel ha3 hb3, cmpNat_peel ha2 hb2, cmpNat_peel ha1 hb1]
  simp only [bytesCmp_cons, bytesCmp_nil, lexInt_zero, lexInt_assoc]

/-- Decomposition of the 80-bit value of an identifier into its decoded
components. -/
theorem natVal_decomp (x : ID) (h : x.valid) :
    natVal x = (((timestampUnits x * 2 + tickTock x) * 256 + x.meta) * 65536
      + partitionU16 x) * 65536 + x.sequence := by
  obtain ⟨a0, a1, a2, a3, a4, a5, a6, a7, a8, a9⟩ := x
  simp only [ID.valid] at h
  obtain ⟨ha0, ha1, ha2, ha3, ha4, ha5, ha6, ha7, ha8, ha9⟩ := h
  simp only [natVal, timestampUnits, beUint64, tickTock, ID.meta,
    partitionU16, ID.sequence]
  rw [Nat.and_one_is_mod a4,
    lor_add 8 (a6 <<< 8) a7 (by omega) (by omega),
    lor_add 8 (a8 <<< 8) a9 (by omega) (by omega)]
  omega

theorem tickTock_lt (x : ID) : tickTock x < 2 := by
  rw [tickTock, Nat.and_one_is_mod]; omega

theorem meta_lt (x : ID) (h : x.valid) : x.meta < 256 := h.2.2.2.2.2.1

theorem partitionU16_lt (x : ID) (h : x.valid) : partitionU16 x < 65536 := by
  have h6 : x.b6 < 256 := h.2.2.2.2.2.2.1
  have h7 : x.b7 < 256 := h.2.2.2.2.2.2.2.1
  rw [partitionU16, lor_add 8 (x.b6 <<< 8) x.b7 (by omega) (by omega)]
  omega

theorem sequence_lt (x : ID) (h : x.valid) : x.sequence < 65536 := by
  have h8 : x.b8 < 256 := h.2.2.2.2.2.2.2.2.1
  have h9 : x.b9 < 256 := h.2.2.2.2.2.2.2.2.2
  rw [ID.sequence, lor_add 8 (x.b8 <<< 8) x.b9 (by omega) (by omega)]
  omega

theorem tupleCmp_natVal (x y : ID) (hx : x.valid) (hy : y.valid) :
    tupleCmp x y = cmpNat (natVal x) (natVal y) := by
  rw [natVal_decomp x hx, natVal_decomp y hy,
    cmpNat_peel (sequence_lt x hx) (sequence_lt y hy),
    cmpNat_peel (partitionU16_lt x hx) (partitionU16_lt y hy),
    cmpNat_peel (meta_lt x hx) (meta_lt y hy),
    cmpNat_peel (tickTock_lt x) (tickTock_lt y)]
  simp only [tupleCmp, lexInt_assoc]

/-- C2: For any two 10-byte identifiers, lexicographic comparison of their
byte arrays (ID.Compare) yields the same ordering as lexicographic
comparison of their decoded component tuples (39-bit time unit count,
tick-tock bit, metabyte, partition as big-endian u16, sequence as
big-endian u16). -/
theorem c2_compare_agrees_with_tuple (x y : ID) (hx : x.valid) (hy : y.valid) :
    ID.compare x y = tupleCmp x y :=
  (bytesCmp_natVal x y hx hy).trans (tupleCmp_natVal x y hx hy).symm

/-- Witness instantiating C2 on a concrete pair of identifiers. -/
theorem c2_compare_agrees_with_tuple_witness :
    ID.compare ⟨1, 2, 3, 4, 5, 6, 7, 8, 9, 10⟩ ⟨1, 2, 3, 4, 5, 6, 7, 9, 0, 0⟩ =
      tupleCmp ⟨1, 2, 3, 4, 5, 6, 7, 8, 9, 10⟩ ⟨1, 2, 3, 4, 5, 6, 7, 9, 0, 0⟩ :=
  c2_compare_agrees_with_tuple _ _ (by decide) (by decide)

/-! ## C7: concrete encode vectors -/

/-- The baseline input of the encode test vector. -/
def encBaselineInput : ID := ⟨78, 111, 33, 96, 160, 255, 154, 10, 16, 51⟩

/-- C7: Encoding the byte array [78,111,33,96,160,255,154,10,16,51] yields
exactly the 16 characters brpk4q72xwf2m63l; encoding ten zero bytes yields
sixteen times the character 2; encoding ten 0xFF bytes yields sixteen times
the character x. -/
theorem c7_encode_vectors :
    (Encode encBaselineInput).toList = "brpk4q72xwf2m63l".toList.map Char.toNat ∧
    (Encode ⟨0, 0, 0, 0, 0, 0, 0, 0, 0, 0⟩).toList =
      "2222222222222222".toList.map Char.toNat ∧
    (Encode ⟨255, 255, 255, 255, 255, 255, 255, 255, 255, 255⟩).toList =
      "xxxxxxxxxxxxxxxx".toList.map Char.toNat := by
  decide


/-! ## Generator state machine (src/generator.go)

Wall-clock readings are `snotime()` values: unsigned counts of 4 ms units
since the 2010-01-01 epoch, so they are modelled as `Nat`. The uint32
fields `seq` and `drifts` wrap modulo `2 ^ 32` exactly where the Go
atomics can. -/

structure GenState where
  wallHi : Nat
  wallSafe : Nat
  seq : Nat
  drifts : Nat
  seqMin : Nat
  seqMax : Nat
  p0 : Nat
  p1 : Nat
deriving DecidableEq

/-- Outcome of one attempt of `Generator.New` for the attempting caller. -/
inductive StepResult where
  | emit (g : GenState) (x : ID)
  | sleepRetry (g : GenState) (units : Nat)
  | stall (g : GenState)
deriving DecidableEq

def StepResult.sleeps : StepResult → Bool
  | .sleepRetry _ _ => true
  | _ => false

def StepResult.state : StepResult → GenState
  | .emit g _ => g
  | .sleepRetry g _ => g
  | .stall g => g

/-- One attempt of `Generator.New` (src/generator.go, lines 160-263) as
seen by a single caller with no interleaved writers: the compare-and-swap
of the time-progression branch succeeds, and the re-read of `wallHi` under
the regression lock observes the value loaded at entry. The overflow stall
(lines 193-210) is reported as `stall`; the deep-regression branch
(lines 256-262) as `sleepRetry` with the duration `wallSafe - wallNow`. -/
def newAttempt (g : GenState) (meta wallNow : Nat) : StepResult :=
  if wallNow = g.wallHi then
    let seq := (g.seq + 1) % 2 ^ 32
    if seq ≤ g.seqMax then
      .emit { g with seq := seq } (mkID wallNow g.drifts meta g.p0 g.p1 seq)
    else
      .stall { g with seq := seq }
  else if g.wallHi < wallNow then
    .emit { g with wallHi := wallNow, seq := g.seqMin }
      (mkID wallNow g.drifts meta g.p0 g.p1 g.seqMin)
  else
    if g.wallSafe < wallNow then
      .emit { g with wallSafe := g.wallHi, wallHi := wallNow, seq := g.seqMin, drifts := (g.drifts + 1) % 2 ^ 32 }
        (mkID wallNow ((g.drifts + 1) % 2 ^ 32) meta g.p0 g.p1 g.seqMin)
    else
      .sleepRetry g (g.wallSafe - wallNow)

/-- C3: When a single call to New observes wallNow strictly below the
current wallHi and strictly above the current wallSafe (an accepted
regression), the call stores wallSafe := the abandoned wallHi, then
wallHi := wallNow, then seq := seqMin, increments drifts by exactly one,
and returns an identifier whose timestamp is wallNow, whose tick-tock bit
equals the LSB of the incremented drifts (toggled exactly once relative to
identifiers issued before the regression), and whose sequence is seqMin. -/
theorem c3_regression_branch (g : GenState) (meta wallNow : Nat)
    (hlo : g.wallSafe < wallNow) (hhi : wallNow < g.wallHi)
    (hd : g.drifts + 1 < 2 ^ 32) (hu : wallNow < 2 ^ 39) (hm : meta < 256)
    (hp0 : g.p0 < 256) (hp1 : g.p1 < 256) (hs : g.seqMin < 65536) :
    newAttempt g meta wallNow =
      .emit { g with wallSafe := g.wallHi, wallHi := wallNow, seq := g.seqMin, drifts := g.drifts + 1 }
        (mkID wallNow (g.drifts + 1) meta g.p0 g.p1 g.seqMin) ∧
    timestampUnits (mkID wallNow (g.drifts + 1) meta g.p0 g.p1 g.seqMin) = wallNow ∧
    tickTock (mkID wallNow (g.drifts + 1) meta g.p0 g.p1 g.seqMin) = (g.drifts + 1) % 2 ∧
    tickTock (mkID wallNow (g.drifts + 1) meta g.p0 g.p1 g.seqMin) ≠ g.drifts % 2 ∧
    (mkID wallNow (g.drifts + 1) meta g.p0 g.p1 g.seqMin).sequence = g.seqMin := by
  refine ⟨?_, mkID_timestampUnits _ _ _ _ _ _ hu hm hp0 hp1, mkID_tickTock _ _ _ _ _ _, ?_,
    mkID_sequence _ _ _ _ _ _ hs⟩
  · rw [newAttempt, if_neg (by omega), if_neg (by omega), if_pos hlo,
      Nat.mod_eq_of_lt hd]
  · rw [mkID_tickTock]
    omega

/-- Witness instantiating the regression branch of C3 on a concrete state. -/
theorem c3_regression_branch_witness :
    newAttempt ⟨100, 50, 7, 3, 0, 65535, 1, 2⟩ 5 80 =
      .emit ⟨80, 100, 0, 4, 0, 65535, 1, 2⟩ (mkID 80 4 5 1 2 0) :=
  (c3_regression_branch ⟨100, 50, 7, 3, 0, 65535, 1, 2⟩ 5 80 (by decide) (by decide)
    (by decide) (by decide) (by decide) (by decide) (by decide) (by decide)).1


/-! ## Snapshots: validation, capture and restore (src/generator.go) -/

/-- The error model of src/errors.go relevant to the verified claims.
`BoundsMsg` discriminates the three InvalidSequenceBoundsError messages. -/
inductive BoundsMsg where
  | identical
  | poolTooSmall
  | underflow
deriving DecidableEq

inductive SnoErr where
  | invalidDataSize (size : Nat)
  | invalidSequenceBounds (cur lo hi : Nat) (msg : BoundsMsg)
  | partitionPoolExhausted
deriving DecidableEq

deriving instance DecidableEq for Except

/-- Translation of `GeneratorSnapshot` (src/generator.go, lines 16-33).
`seqMin`, `seqMax` are the uint16 bounds, `seq` the uint32 Sequence. -/
structure Snapshot where
  p0 : Nat
  p1 : Nat
  seqMin : Nat
  seqMax : Nat
  seq : Nat
  now : Nat
  wallHi : Nat
  wallSafe : Nat
  drifts : Nat
deriving DecidableEq

/-- Translation of `sanitizeSnapshotBounds` (src/generator.go, lines
483-513). The Go uint16 subtraction `seqMax - seqMin - 1` cannot wrap at
its use site: it runs after the identical-bounds check and the swap, so
`seqMax > seqMin` holds there and plain `Nat` subtraction agrees. -/
def sanitizeSnapshotBounds (s : Snapshot) : Except SnoErr Snapshot :=
  let s1 := if s.seqMax = 0 ∧ s.seqMin ≠ 65535 then { s with seqMax := 65535 } else s
  if s1.seqMin = s1.seqMax then
    .error (.invalidSequenceBounds s1.seq s1.seqMin s1.seqMax .identical)
  else
    let s2 := if s1.seqMax < s1.seqMin then { s1 with seqMin := s1.seqMax, seqMax := s1.seqMin } else s1
    if s2.seqMax - s2.seqMin - 1 < 4 then
      .error (.invalidSequenceBounds s2.seq s2.seqMin s2.seqMax .poolTooSmall)
    else
      let s3 := if s2.seq = 0 then { s2 with seq := s2.seqMin } else s2
      if s3.seq < s3.seqMin then
        .error (.invalidSequenceBounds s3.seq s3.seqMin s3.seqMax .underflow)
      else
        .ok s3

/-- Translation of `newGeneratorFromSnapshot` (src/generator.go, lines
93-128): validate the bounds, then, when the snapshot carries a non-zero
`WallSafe` bigger than the current clock reading, replace `WallHi` with
that clock reading before seeding the generator state. -/
def newGeneratorFromSnapshot (snapshot : Snapshot) (wallNow : Nat) :
    Except SnoErr GenState :=
  match sanitizeSnapshotBounds snapshot with
  | .error e => .error e
  | .ok s =>
    let s' := if s.wallSafe ≠ 0 ∧ wallNow < s.wallSafe then { s with wallHi := wallNow } else s
    .ok { wallHi := s'.wallHi, wallSafe := s'.wallSafe, seq := s'.seq,
          drifts := s'.drifts, seqMin := s'.seqMin, seqMax := s'.seqMax,
          p0 := s'.p0, p1 := s'.p1 }

/-- Translation of `Generator.Snapshot` (src/generator.go, lines 357-382):
the recorded Sequence is the live `seq` when the clock still equals
`wallHi`, and `seqMin` otherwise. -/
def snapshotOf (g : GenState) (wallNow : Nat) : Snapshot :=
  { p0 := g.p0, p1 := g.p1, seqMin := g.seqMin, seqMax := g.seqMax,
    seq := if wallNow = g.wallHi then g.seq else g.seqMin,
    now := wallNow, wallHi := g.wallHi, wallSafe := g.wallSafe,
    drifts := g.drifts }


/-! ## C5: snapshot bounds validation -/

/-- Counterexample to C5 as stated: the snapshot with bounds 0..3 has
capacity seqMax - seqMin + 1 = 4, which the claim says must be accepted,
yet `sanitizeSnapshotBounds` rejects it (its check is
`seqMax - seqMin - 1 < 4`, i.e. it demands a capacity of at least 6). -/
theorem c5_counterexample :
    sanitizeSnapshotBounds ⟨0, 0, 0, 3, 0, 0, 0, 0, 0⟩ =
      .error (.invalidSequenceBounds 0 0 3 .poolTooSmall) ∧
    3 - 0 + 1 = 4 := by
  decide

/-- Intermediate values of `sanitizeSnapshotBounds`, named for use in the
statement of the error characterization: `normMax` is the max bound after
the zero-value default, `normLo`/`normHi` are the bounds after the swap,
and `normSeq` is the sequence after its zero-value default. -/
def normMax (s : Snapshot) : Nat :=
  if s.seqMax = 0 ∧ s.seqMin ≠ 65535 then 65535 else s.seqMax

def normLo (s : Snapshot) : Nat := min s.seqMin (normMax s)

def normHi (s : Snapshot) : Nat := max s.seqMin (normMax s)

def normSeq (s : Snapshot) : Nat := if s.seq = 0 then normLo s else s.seq

set_option maxHeartbeats 3200000 in
/-- C5 amended: construction from a snapshot succeeds if and only if,
after normalization (SequenceMax of 0 with SequenceMin different from
65535 becomes 65535; bounds given in either order are swapped so that
min is at most max; a Sequence of 0 becomes SequenceMin), the bounds are
not identical, the capacity seqMax - seqMin + 1 is at least 6 (not 4 as
claimed: the code checks seqMax - seqMin - 1 < 4), and Sequence is at
least SequenceMin; otherwise it returns an InvalidSequenceBoundsError
carrying the sequence, the normalized min and max and the violated
condition, and produces no generator. -/
theorem c5_amended (s : Snapshot) (hmin : s.seqMin < 65536) (hmax : s.seqMax < 65536) :
    ((∃ s', sanitizeSnapshotBounds s = .ok s') ↔
      (min s.seqMin (if s.seqMax = 0 ∧ s.seqMin ≠ 65535 then 65535 else s.seqMax) ≠
         max s.seqMin (if s.seqMax = 0 ∧ s.seqMin ≠ 65535 then 65535 else s.seqMax) ∧
       6 ≤ max s.seqMin (if s.seqMax = 0 ∧ s.seqMin ≠ 65535 then 65535 else s.seqMax) -
         min s.seqMin (if s.seqMax = 0 ∧ s.seqMin ≠ 65535 then 65535 else s.seqMax) + 1 ∧
       min s.seqMin (if s.seqMax = 0 ∧ s.seqMin ≠ 65535 then 65535 else s.seqMax) ≤
         (if s.seq = 0 then
            min s.seqMin (if s.seqMax = 0 ∧ s.seqMin ≠ 65535 then 65535 else s.seqMax)
          else s.seq))) ∧
    (∀ e, sanitizeSnapshotBounds s = .error e →
      (normLo s = normHi s ∧
        e = .invalidSequenceBounds s.seq (normLo s) (normHi s) .identical) ∨
      (normLo s ≠ normHi s ∧ normHi s - normLo s - 1 < 4 ∧
        e = .invalidSequenceBounds s.seq (normLo s) (normHi s) .poolTooSmall) ∨
      (normLo s ≠ normHi s ∧ 4 ≤ normHi s - normLo s - 1 ∧ normSeq s < normLo s ∧
        e = .invalidSequenceBounds (normSeq s) (normLo s) (normHi s) .underflow)) := by
  refine ⟨⟨?_, ?_⟩, ?_⟩
  · rintro ⟨s', h⟩
    simp only [sanitizeSnapshotBounds] at h
    split_ifs at h ⊢ <;>
      first
        | exact Except.noConfusion h
        | ((try dsimp only at *); omega)
  · intro hc
    simp only [sanitizeSnapshotBounds]
    split_ifs at hc ⊢ <;>
      first
        | exact ⟨_, rfl⟩
        | (exfalso; (try dsimp only at *); omega)
  · intro e h
    simp only [sanitizeSnapshotBounds] at h
    simp only [normLo, normHi, normMax, normSeq, Nat.min_def, Nat.max_def]
    split_ifs at h ⊢ <;>
      first
        | exact Except.noConfusion h
        | ((try simp only [] at *)
           injection h with h
           subst h
           first
             | (refine Or.inl ⟨by omega, ?_⟩
                refine (SnoErr.invalidSequenceBounds.injEq _ _ _ _ _ _ _ _).mpr
                  ⟨?_, ?_, ?_, rfl⟩ <;> omega)
             | (refine Or.inr (Or.inl ⟨by omega, by omega, ?_⟩)
                refine (SnoErr.invalidSequenceBounds.injEq _ _ _ _ _ _ _ _).mpr
                  ⟨?_, ?_, ?_, rfl⟩ <;> omega)
             | (refine Or.inr (Or.inr ⟨by omega, by omega, by omega, ?_⟩)
                refine (SnoErr.invalidSequenceBounds.injEq _ _ _ _ _ _ _ _).mpr
                  ⟨?_, ?_, ?_, rfl⟩ <;> omega))

/-- Witness instantiating C5 (amended) on the accepted snapshot with
bounds 1024..2047, on the rejected snapshot with bounds 0..3, and on the
error values that rejection carries. -/
theorem c5_amended_witness :
    (∃ s', sanitizeSnapshotBounds ⟨255, 255, 1024, 2047, 0, 0, 0, 0, 0⟩ = .ok s') ∧
    ¬ (∃ s', sanitizeSnapshotBounds ⟨0, 0, 0, 3, 0, 0, 0, 0, 0⟩ = .ok s') ∧
    (∀ e, sanitizeSnapshotBounds ⟨0, 0, 0, 3, 0, 0, 0, 0, 0⟩ = .error e →
      e = .invalidSequenceBounds 0 0 3 .poolTooSmall) := by
  refine ⟨?_, ?_, ?_⟩
  · exact (c5_amended ⟨255, 255, 1024, 2047, 0, 0, 0, 0, 0⟩ (by decide) (by decide)).1.mpr
      (by decide)
  · intro hok
    have h := (c5_amended ⟨0, 0, 0, 3, 0, 0, 0, 0, 0⟩ (by decide) (by decide)).1.mp hok
    revert h
    decide
  · intro e h
    rcases (c5_amended ⟨0, 0, 0, 3, 0, 0, 0, 0, 0⟩ (by decide) (by decide)).2 e h with
      h1 | h2 | h3
    · exact absurd h1.1 (by decide)
    · exact h2.2.2
    · exact absurd h3.2.1 (by decide)

/-! ## C4: restoration from a snapshot taken around a regression -/

theorem sanitize_wall (s s' : Snapshot) (h : sanitizeSnapshotBounds s = .ok s') :
    s'.wallSafe = s.wallSafe ∧ s'.wallHi = s.wallHi := by
  simp only [sanitizeSnapshotBounds] at h
  split_ifs at h <;>
    first
      | exact Except.noConfusion h
      | (injection h with h; subst h; simp)

/-- Counterexample to C4 as stated. A generator at wallHi = 120,
wallSafe = 200, drifts = 1 issues an identifier at wall time 120, moves
forward to 130 and issues another, and is snapshotted at 130. Restoring
that snapshot at clock reading 120 (which is below WallSafe = 200)
produces a generator whose very first call at the same reading 120 does
not sleep, does not toggle the tick-tock bit, and returns an identifier
byte-identical to one issued before the snapshot - in particular its
40-bit timestamp block is less than or equal to blocks issued earlier. -/
theorem c4_counterexample :
    newAttempt ⟨120, 200, 0, 1, 0, 65535, 0, 1⟩ 0 120 =
      .emit ⟨120, 200, 1, 1, 0, 65535, 0, 1⟩ (mkID 120 1 0 0 1 1) ∧
    newAttempt ⟨120, 200, 1, 1, 0, 65535, 0, 1⟩ 0 130 =
      .emit ⟨130, 200, 0, 1, 0, 65535, 0, 1⟩ (mkID 130 1 0 0 1 0) ∧
    snapshotOf ⟨130, 200, 0, 1, 0, 65535, 0, 1⟩ 130 =
      ⟨0, 1, 0, 65535, 0, 130, 130, 200, 1⟩ ∧
    newGeneratorFromSnapshot ⟨0, 1, 0, 65535, 0, 130, 130, 200, 1⟩ 120 =
      .ok ⟨120, 200, 0, 1, 0, 65535, 0, 1⟩ ∧
    (newAttempt ⟨120, 200, 0, 1, 0, 65535, 0, 1⟩ 0 120).sleeps = false ∧
    tickTock (mkID 120 1 0 0 1 1) = 1 % 2 ∧
    timestampUnits (mkID 120 1 0 0 1 1) * 2 + tickTock (mkID 120 1 0 0 1 1) ≤
      timestampUnits (mkID 130 1 0 0 1 0) * 2 + tickTock (mkID 130 1 0 0 1 0) := by
  decide

/-- C4 amended: a generator restored from a snapshot whose WallSafe
exceeds the clock reading at construction gets wallHi set to that reading
(not to WallSafe); a subsequent call that observes a wall clock strictly
below wallHi sleeps for wallSafe - wallNow without emitting or toggling,
but calls observing the clock at or above the restored wallHi emit
immediately with the restored tick-tock parity and may re-issue 40-bit
timestamp blocks of identifiers issued before the snapshot. -/
theorem c4_amended (s : Snapshot) (wallNowR : Nat) (g : GenState)
    (hsafe : wallNowR < s.wallSafe)
    (hr : newGeneratorFromSnapshot s wallNowR = .ok g) :
    g.wallHi = wallNowR ∧ g.wallSafe = s.wallSafe ∧
    ∀ meta w, w < wallNowR →
      newAttempt g meta w = .sleepRetry g (s.wallSafe - w) := by
  simp only [newGeneratorFromSnapshot] at hr
  cases hsan : sanitizeSnapshotBounds s with
  | error e => rw [hsan] at hr; exact Except.noConfusion hr
  | ok s1 =>
    rw [hsan] at hr
    obtain ⟨hws, hwh⟩ := sanitize_wall s s1 hsan
    simp only at hr
    have hcond : s1.wallSafe ≠ 0 ∧ wallNowR < s1.wallSafe := ⟨by omega, by omega⟩
    rw [if_pos hcond] at hr
    injection hr with hr
    subst hr
    refine ⟨rfl, hws, ?_⟩
    intro meta w hw
    simp only [newAttempt]
    rw [if_neg (by omega), if_neg (by omega), if_neg (by omega), hws]

/-- Witness instantiating C4 (amended) on the snapshot of the
counterexample trace. -/
theorem c4_amended_witness :
    ∃ g, newGeneratorFromSnapshot ⟨0, 1, 0, 65535, 0, 130, 130, 200, 1⟩ 120 = .ok g ∧
      g.wallHi = 120 ∧ g.wallSafe = 200 ∧
      newAttempt g 0 119 = .sleepRetry g (200 - 119) := by
  refine ⟨⟨120, 200, 0, 1, 0, 65535, 0, 1⟩, by decide, ?_⟩
  have h := c4_amended ⟨0, 1, 0, 65535, 0, 130, 130, 200, 1⟩ 120
    ⟨120, 200, 0, 1, 0, 65535, 0, 1⟩ (by decide) (by decide)
  exact ⟨h.1, h.2.1, h.2.2 0 119 (by decide)⟩


/-! ## C8: default-partition allocator (src/partition.go) -/

/-- The process-wide counter starts at `^uint32(0)`, all ones
(src/partition.go, lines 69-72). -/
def counterInit : Nat := 2 ^ 32 - 1

/-- The process seed: `uint16((t >> 32) ^ t)` computed once from a clock
reading t (src/partition.go, lines 73-77). -/
def seedOf (t : Nat) : Nat := ((t >>> 32) ^^^ t) % 65536

/-- Translation of `genPartition` (src/partition.go, lines 57-67) as a
transformer of the counter: the atomic increment wraps at 2^32, the
observed value n fails the allocation when above MaxPartition, and the
returned word is `uint32(seed+uint16(n)) << 16`. -/
def genPartition (seed counter : Nat) : Nat × Except SnoErr Nat :=
  let n := (counter + 1) % 2 ^ 32
  (n, if 65535 < n then .error .partitionPoolExhausted
      else .ok (((seed + n % 65536) % 65536) <<< 16))

/-- The counter after k allocator calls in the process. -/
def counterAfter (seed : Nat) : Nat → Nat
  | 0 => counterInit
  | k + 1 => (genPartition seed (counterAfter seed k)).1

theorem counterAfter_eq (seed k : Nat) :
    counterAfter seed k = (counterInit + k) % 2 ^ 32 := by
  induction k with
  | zero =>
    simp only [counterAfter, counterInit, Nat.add_zero]
    omega
  | succ k ih =>
    simp only [counterAfter, genPartition]
    rw [ih]
    simp only [counterInit]
    omega

/-- C8: For the k-th call to the default-partition allocator in a process
(k counting from 0, the counter starting at all-ones so the first
increment observes 0): if k <= 65535 it succeeds and returns the 32-bit
word ((seed + k) mod 65536) shifted into the two high bytes with the low
two bytes zero, where seed is the 16-bit process-wide value derived once
from the clock reading by XOR-ing its halves; if k > 65535 it fails with
PartitionPoolExhaustedError. -/
theorem c8_partition_allocator (t k : Nat) (hk : k < 2 ^ 32) :
    (k ≤ 65535 →
      (genPartition (seedOf t) (counterAfter (seedOf t) k)).2 =
        .ok (((seedOf t + k) % 65536) <<< 16)) ∧
    (65535 < k →
      (genPartition (seedOf t) (counterAfter (seedOf t) k)).2 =
        .error .partitionPoolExhausted) := by
  have hn : (counterAfter (seedOf t) k + 1) % 2 ^ 32 = k := by
    rw [counterAfter_eq]
    simp only [counterInit]
    omega
  constructor
  · intro h
    simp only [genPartition, hn]
    rw [if_neg (by omega), Nat.mod_eq_of_lt (show k < 65536 by omega)]
  · intro h
    simp only [genPartition, hn]
    rw [if_pos h]

/-- Witness instantiating C8 at seed time 81985529216486895 for the 3rd
and the 70000th call. -/
theorem c8_partition_allocator_witness :
    (genPartition (seedOf 81985529216486895)
        (counterAfter (seedOf 81985529216486895) 3)).2 =
      .ok (((seedOf 81985529216486895 + 3) % 65536) <<< 16) ∧
    (genPartition (seedOf 81985529216486895)
        (counterAfter (seedOf 81985529216486895) 70000)).2 =
      .error .partitionPoolExhausted :=
  ⟨(c8_partition_allocator 81985529216486895 3 (by decide)).1 (by decide),
   (c8_partition_allocator 81985529216486895 70000 (by decide)).2 (by decide)⟩


/-! ## C9/C10: interchange forms (src/id.go, src/global.go) -/

def zeroID : ID := ⟨0, 0, 0, 0, 0, 0, 0, 0, 0, 0⟩

/-- View of a byte list as the 16-byte encoded form; the Go code indexes
src[0]..src[15], which its callers guarantee exist. -/
def encIDofList (l : List Nat) : EncID :=
  ⟨l.getD 0 0, l.getD 1 0, l.getD 2 0, l.getD 3 0, l.getD 4 0, l.getD 5 0,
   l.getD 6 0, l.getD 7 0, l.getD 8 0, l.getD 9 0, l.getD 10 0, l.getD 11 0,
   l.getD 12 0, l.getD 13 0, l.getD 14 0, l.getD 15 0⟩

/-- Translation of `ID.MarshalJSON` (src/id.go, lines 153-163): the zero
identifier serializes to the 4 bytes of `null`, anything else to the
16-character encoding wrapped in the quote byte 34. -/
def marshalJSON (x : ID) : List Nat :=
  if x = zeroID then [110, 117, 108, 108]
  else 34 :: ((Encode x).toList ++ [34])

/-- Translation of `ID.UnmarshalJSON` (src/id.go, lines 170-184): inputs
of length other than 18 are the 4-byte `null` (byte values 110 117 108
108) or an InvalidDataSizeError; an 18-byte input has bytes 1..16 decoded
with no inspection of the delimiter bytes. -/
def unmarshalJSON (src : List Nat) : Except SnoErr ID :=
  if src.length ≠ 18 then
    if src.length = 4 ∧ src.getD 0 0 = 110 ∧ src.getD 1 0 = 117 ∧
        src.getD 2 0 = 108 ∧ src.getD 3 0 = 108 then
      .ok zeroID
    else
      .error (.invalidDataSize src.length)
  else
    .ok (Decode (encIDofList (src.drop 1)))

/-- Translation of `ID.UnmarshalText` (src/id.go, lines 132-140): only
the length is checked. -/
def unmarshalText (src : List Nat) : Except SnoErr ID :=
  if src.length ≠ 16 then .error (.invalidDataSize src.length)
  else .ok (Decode (encIDofList src))

/-- Translation of `FromEncodedString` (src/global.go, lines 63-70):
only the length is checked. -/
def FromEncodedString (src : List Nat) : Except SnoErr ID :=
  if src.length ≠ 16 then .error (.invalidDataSize src.length)
  else .ok (Decode (encIDofList src))

/-- C10: For every input of length exactly 16, the text-decoding
operations (ID.UnmarshalText and FromEncodedString) return a nil error
regardless of the input's content: only the length is validated, and
bytes outside the 32-character alphabet are mapped through inverse-table
entries of 0xFF, yielding some (unspecified) identifier rather than an
error or a panic. -/
theorem c10_length_only_validation (src : List Nat) (h : src.length = 16) :
    unmarshalText src = .ok (Decode (encIDofList src)) ∧
    FromEncodedString src = .ok (Decode (encIDofList src)) ∧
    ∀ c : Nat, c ∉ encTable → dec c = 255 := by
  refine ⟨?_, ?_, ?_⟩
  · simp [unmarshalText, h]
  · simp [FromEncodedString, h]
  · intro c hc
    simp [dec, hc]

/-- Witness instantiating C10 on sixteen bytes of the character 0, which
is outside the alphabet. -/
theorem c10_length_only_validation_witness :
    unmarshalText [48, 48, 48, 48, 48, 48, 48, 48, 48, 48, 48, 48, 48, 48, 48, 48] =
      .ok (Decode (encIDofList
        [48, 48, 48, 48, 48, 48, 48, 48, 48, 48, 48, 48, 48, 48, 48, 48])) ∧
    FromEncodedString [48, 48, 48, 48, 48, 48, 48, 48, 48, 48, 48, 48, 48, 48, 48, 48] =
      .ok (Decode (encIDofList
        [48, 48, 48, 48, 48, 48, 48, 48, 48, 48, 48, 48, 48, 48, 48, 48])) ∧
    ∀ c : Nat, c ∉ encTable → dec c = 255 :=
  c10_length_only_validation
    [48, 48, 48, 48, 48, 48, 48, 48, 48, 48, 48, 48, 48, 48, 48, 48] (by decide)

/-- Counterexample to C9 as stated: the 18-byte input X...Y (the quote
bytes replaced by 88 and 89) is neither `null` nor a quote-delimited
string, yet UnmarshalJSON succeeds instead of failing with
InvalidDataSizeError - only the length is inspected. -/
theorem c9_counterexample :
    unmarshalJSON [88, 98, 114, 112, 107, 52, 113, 55, 50,
        120, 119, 102, 50, 109, 54, 51, 108, 89] =
      .ok (Decode (encIDofList [98, 114, 112, 107, 52, 113, 55, 50,
        120, 119, 102, 50, 109, 54, 51, 108])) ∧
    ([88, 98, 114, 112, 107, 52, 113, 55, 50,
        120, 119, 102, 50, 109, 54, 51, 108, 89] : List Nat).getD 0 0 ≠ 34 ∧
    ([88, 98, 114, 112, 107, 52, 113, 55, 50,
        120, 119, 102, 50, 109, 54, 51, 108, 89] : List Nat) ≠
      [110, 117, 108, 108] := by
  decide

/-- C9 amended: MarshalJSON returns the unquoted literal null for the
zero identifier and the quote-delimited 16-character text form for every
other identifier; UnmarshalJSON maps the 4-byte input null to the zero
identifier, decodes bytes 1..16 of every 18-byte input regardless of the
delimiter bytes, and fails with InvalidDataSizeError exactly on inputs
whose length is neither 18 nor a 4-byte null. -/
theorem c9_amended (x : ID) (src : List Nat) :
    (x = zeroID → marshalJSON x = [110, 117, 108, 108]) ∧
    (x ≠ zeroID → marshalJSON x = 34 :: ((Encode x).toList ++ [34])) ∧
    (src.length = 18 → unmarshalJSON src = .ok (Decode (encIDofList (src.drop 1)))) ∧
    (src = [110, 117, 108, 108] → unmarshalJSON src = .ok zeroID) ∧
    (src.length ≠ 18 → src ≠ [110, 117, 108, 108] →
      unmarshalJSON src = .error (.invalidDataSize src.length)) := by
  refine ⟨?_, ?_, ?_, ?_, ?_⟩
  · intro h
    simp [marshalJSON, h]
  · intro h
    simp [marshalJSON, h]
  · intro h
    simp [unmarshalJSON, h]
  · intro h
    subst h
    decide
  · intro h18 hne
    simp only [unmarshalJSON]
    rw [if_pos h18, if_neg ?hcond]
    case hcond =>
      rintro ⟨h4, e0, e1, e2, e3⟩
      apply hne
      rcases src with _ | ⟨a, _ | ⟨b, _ | ⟨c, _ | ⟨d, _ | ⟨e, rest⟩⟩⟩⟩⟩ <;>
        simp_all

/-- Witness instantiating C9 (amended) on a concrete identifier and a
concrete malformed input. -/
theorem c9_amended_witness :
    marshalJSON ⟨78, 111, 33, 96, 160, 255, 154, 10, 16, 51⟩ =
      34 :: ((Encode ⟨78, 111, 33, 96, 160, 255, 154, 10, 16, 51⟩).toList ++ [34]) ∧
    unmarshalJSON [110, 117, 108, 108] = .ok zeroID ∧
    unmarshalJSON [50, 50, 50] = .error (.invalidDataSize 3) := by
  have h := c9_amended ⟨78, 111, 33, 96, 160, 255, 154, 10, 16, 51⟩ [50, 50, 50]
  have h2 := c9_amended zeroID [110, 117, 108, 108]
  exact ⟨h.2.1 (by decide), h2.2.2.2.1 rfl, h.2.2.2.2 (by decide) (by decide)⟩

end Sno
